import Mathlib

/-!
# Verification of the patternfly-yew slider and card components

Shallow embedding of `src/slider.rs` and `src/components/card/mod.rs`.
Rust `f64` values are modelled as exact rationals (`ℚ`); the claims under
scrutiny are about the arithmetic structure of the code, stated by the spec
"modulo floating-point tolerance", so the exact-arithmetic model is the
intended reading.  Rust `String`s are modelled as `List Char`; the yew
`Classes` collection is modelled as the ordered list of pushed class names
(membership statements are insensitive to the de-duplication the real
container performs).
-/

namespace PFY

/-- `Step` from `slider.rs`: a point of the slider domain. -/
structure Step where
  value : ℚ
  label : Option (List Char)
deriving DecidableEq

/-- `Props` of the `Slider` component (the `onchange` callback is modelled
by collecting the values emitted to it). -/
structure Props where
  min : Step
  max : Step
  value : Option ℚ
  hide_labels : Bool
  label_precision : Nat
deriving DecidableEq

/-- Rust `f64::clamp(self, 0.0, 1.0)`: returns the bound when the value lies
outside it, the value itself otherwise. -/
def clamp01 (x : ℚ) : ℚ :=
  if x < 0 then 0 else if 1 < x then 1 else x

/-- `Slider::calc_percent` from `slider.rs` (lines 230–234):
`let delta = max - min; (value / delta).clamp(0, 1)`.
Note that the source divides the raw `value`, it does not subtract `min`. -/
def calc_percent (value : ℚ) (props : Props) : ℚ :=
  clamp01 (value / (props.max.value - props.min.value))

/-- `Slider::calc_value` from `slider.rs` (lines 236–239):
`let delta = max - min; delta * p`.  The source does not add `min`. -/
def calc_value (p : ℚ) (props : Props) : ℚ :=
  (props.max.value - props.min.value) * p

/-- The value-to-fraction map as the spec words it:
`(value - min) / (max - min)` clamped to `[0,1]`. -/
def toPercent_spec (value mn mx : ℚ) : ℚ :=
  max 0 (min ((value - mn) / (mx - mn)) 1)

/-- The fraction-to-value map as the spec words it: `min + fraction * (max - min)`. -/
def toValue_spec (p mn mx : ℚ) : ℚ :=
  mn + p * (mx - mn)

theorem clamp01_eq_max_min (x : ℚ) : clamp01 x = max 0 (min x 1) := by
  unfold clamp01
  rcases lt_trichotomy x 0 with h | h | h
  · rw [if_pos h]
    rw [min_eq_left (le_of_lt (lt_of_lt_of_le h (by norm_num)))]
    rw [max_eq_left (le_of_lt h)]
  · subst h; norm_num
  · rw [if_neg (not_lt.mpr (le_of_lt h))]
    by_cases h1 : 1 < x
    · rw [if_pos h1, min_eq_right (le_of_lt h1)]; norm_num
    · rw [if_neg h1, min_eq_left (not_lt.mp h1), max_eq_right (le_of_lt h)]

theorem clamp01_nonneg (x : ℚ) : 0 ≤ clamp01 x := by
  rw [clamp01_eq_max_min]; exact le_max_left 0 _

theorem clamp01_le_one (x : ℚ) : clamp01 x ≤ 1 := by
  rw [clamp01_eq_max_min]
  exact max_le (by norm_num) (min_le_right x 1)

/-- A fixed configuration with `min.value = 1 < 3 = max.value`, used to
exhibit the divergence between the mappers of the source and the formulas
of the spec. -/
def propsOneThree : Props :=
  { min := ⟨1, none⟩, max := ⟨3, none⟩, value := none
    hide_labels := false, label_precision := 2 }

/-- **C1, counterexample.** The claim says `calc_percent` returns
`(value - min) / (max - min)` clamped to `[0,1]`.  With `min = 1`,
`max = 3` (so `min < max`) and input value `2`, the source computes
`clamp01 (2 / 2) = 1` while the claimed formula gives `1/2`. -/
theorem calc_percent_deviates_from_spec :
    propsOneThree.min.value < propsOneThree.max.value ∧
      calc_percent 2 propsOneThree ≠
        toPercent_spec 2 propsOneThree.min.value propsOneThree.max.value := by
  constructor
  · norm_num [propsOneThree]
  · norm_num [propsOneThree, calc_percent, clamp01, toPercent_spec]

/-- **C1, amended.** For every configuration with `min.value < max.value`,
`calc_percent value props` equals `value / (max.value - min.value)` clamped
to `[0,1]` — the raw value is divided by the span, `min` is not subtracted. -/
theorem calc_percent_eq_clamped_ratio (value : ℚ) (props : Props)
    (h : props.min.value < props.max.value) :
    calc_percent value props =
      max 0 (min (value / (props.max.value - props.min.value)) 1) := by
  rw [calc_percent, clamp01_eq_max_min]

/-- Witness for `calc_percent_eq_clamped_ratio` at `value = 2`,
`props = propsOneThree`. -/
theorem calc_percent_eq_clamped_ratio_witness :
    propsOneThree.min.value < propsOneThree.max.value ∧
      calc_percent 2 propsOneThree =
        max 0 (min (2 / (propsOneThree.max.value - propsOneThree.min.value)) 1) :=
  ⟨by norm_num [propsOneThree],
    calc_percent_eq_clamped_ratio 2 propsOneThree (by norm_num [propsOneThree])⟩

/-- **C2, counterexample.** The claim says `calc_value p props` returns
`min.value + p * (max.value - min.value)`.  With `min = 1`, `max = 3` and
fraction `p = 0`, the source computes `2 * 0 = 0` while the claimed formula
gives `1 + 0 * 2 = 1`. -/
theorem calc_value_deviates_from_spec :
    propsOneThree.min.value < propsOneThree.max.value ∧
      calc_value 0 propsOneThree ≠
        toValue_spec 0 propsOneThree.min.value propsOneThree.max.value := by
  constructor
  · norm_num [propsOneThree]
  · norm_num [propsOneThree, calc_value, toValue_spec]

/-- **C2, amended.** For every fraction `p` and every configuration with
`min.value < max.value`, `calc_value p props` equals
`p * (max.value - min.value)` — the `min` offset is not added. -/
theorem calc_value_eq_scaled (p : ℚ) (props : Props)
    (h : props.min.value < props.max.value) :
    calc_value p props = p * (props.max.value - props.min.value) := by
  rw [calc_value, mul_comm]

/-- Witness for `calc_value_eq_scaled` at `p = 1/2`, `props = propsOneThree`. -/
theorem calc_value_eq_scaled_witness :
    propsOneThree.min.value < propsOneThree.max.value ∧
      calc_value (1/2) propsOneThree =
        (1/2) * (propsOneThree.max.value - propsOneThree.min.value) :=
  ⟨by norm_num [propsOneThree],
    calc_value_eq_scaled (1/2) propsOneThree (by norm_num [propsOneThree])⟩

/-- **C3, counterexample.** The claim says the two mappers round-trip for
every `v` with `min.value ≤ v ≤ max.value`.  With `min = 1`, `max = 3` and
`v = 3`, the composition gives `calc_value (clamp01 (3/2)) = 2 * 1 = 2 ≠ 3`. -/
theorem roundtrip_fails_at_three :
    propsOneThree.min.value < propsOneThree.max.value ∧
      propsOneThree.min.value ≤ 3 ∧ (3:ℚ) ≤ propsOneThree.max.value ∧
      calc_value (calc_percent 3 propsOneThree) propsOneThree ≠ 3 := by
  refine ⟨by norm_num [propsOneThree], by norm_num [propsOneThree],
    by norm_num [propsOneThree], ?_⟩
  norm_num [propsOneThree, calc_percent, calc_value, clamp01]

/-- **C3, amended.** The mappers round-trip on the interval the source
actually preserves: for every configuration with `min.value < max.value` and
every `v` with `0 ≤ v ≤ max.value - min.value`,
`calc_value (calc_percent v props) props = v` (exactly, in the rational
model). -/
theorem calc_value_calc_percent_roundtrip (v : ℚ) (props : Props)
    (hlt : props.min.value < props.max.value)
    (h0 : 0 ≤ v) (h1 : v ≤ props.max.value - props.min.value) :
    calc_value (calc_percent v props) props = v := by
  have hd : (0:ℚ) < props.max.value - props.min.value := sub_pos.mpr hlt
  have hfrac0 : 0 ≤ v / (props.max.value - props.min.value) :=
    div_nonneg h0 (le_of_lt hd)
  have hfrac1 : v / (props.max.value - props.min.value) ≤ 1 :=
    (div_le_one hd).mpr h1
  rw [calc_percent, clamp01,
    if_neg (not_lt.mpr hfrac0), if_neg (not_lt.mpr hfrac1), calc_value,
    mul_div_cancel₀ v (ne_of_gt hd)]

/-- Witness for `calc_value_calc_percent_roundtrip` at `v = 3/2`,
`props = propsOneThree`. -/
theorem calc_value_calc_percent_roundtrip_witness :
    propsOneThree.min.value < propsOneThree.max.value ∧
      (0:ℚ) ≤ 3/2 ∧
      (3/2 : ℚ) ≤ propsOneThree.max.value - propsOneThree.min.value ∧
      calc_value (calc_percent (3/2) propsOneThree) propsOneThree = 3/2 :=
  ⟨by norm_num [propsOneThree], by norm_num,
    by norm_num [propsOneThree],
    calc_value_calc_percent_roundtrip (3/2) propsOneThree
      (by norm_num [propsOneThree]) (by norm_num) (by norm_num [propsOneThree])⟩

/-! ## The slider component state machine -/

/-- `Msg` from `slider.rs`: the messages the `Slider` component processes. -/
inductive Msg where
  | SetPercent (value : ℚ)
  | Start (x : ℤ)
  | Move (x : ℤ)
  | Stop
deriving DecidableEq

/-- The state of the `Slider` struct.  The two `Option EventListener` fields
are modelled by the identity (a serial number) of the owned listener; the
`attachedMove`/`attachedUp` lists model which listeners are currently
attached to the document for the two event kinds (`EventListener::new`
attaches, dropping detaches), and `nextId` is the supply of fresh listener
identities. -/
structure State where
  value : ℚ
  mousemove : Option Nat
  mouseup : Option Nat
  attachedMove : List Nat
  attachedUp : List Nat
  nextId : Nat
deriving DecidableEq

/-- The geometry of the rail element, from `get_bounding_client_rect()`. -/
structure Rect where
  left : ℚ
  width : ℚ
deriving DecidableEq

/-- Dropping an `Option EventListener`: if a listener is owned, its `Drop`
impl removes it from the document's attached list. -/
def detachOpt (doc : List Nat) : Option Nat → List Nat
  | none => doc
  | some i => doc.erase i

/-- `Slider::create` (lines 90–105): derive the initial percent and value
from `props.value` (or default to `0` / `min.value`), emit one change event
with the value, and build the state with no listeners attached.  Returns the
state together with the list of values emitted to `onchange`. -/
def create (props : Props) : State × List ℚ :=
  match props.value with
  | some value =>
      ({ value := calc_percent value props, mousemove := none, mouseup := none,
         attachedMove := [], attachedUp := [], nextId := 0 }, [value])
  | none =>
      ({ value := 0, mousemove := none, mouseup := none,
         attachedMove := [], attachedUp := [], nextId := 0 }, [props.min.value])

/-- `Slider::start` (lines 176–206): build and attach a fresh `mousemove`
listener on the document, store it in `self.mousemove` (the assignment drops
— and thereby detaches — any previously stored listener), then do the same
for `mouseup`. -/
def start (s : State) : State :=
  let mmId := s.nextId
  let am := detachOpt (s.attachedMove ++ [mmId]) s.mousemove
  let muId := s.nextId + 1
  let au := detachOpt (s.attachedUp ++ [muId]) s.mouseup
  { s with mousemove := some mmId, mouseup := some muId,
           attachedMove := am, attachedUp := au,
           nextId := s.nextId + 2 }

/-- The percent computed by `Slider::r#move` (lines 208–228) from the rail
geometry and the pointer x-coordinate: `value = x - left`, clamped to `0`
when `value <= 0`, to `1` when `value >= width`, else `value / width`. -/
def movePercent (r : Rect) (x : ℤ) : ℚ :=
  if (x : ℚ) - r.left ≤ 0 then 0
  else if r.width ≤ (x : ℚ) - r.left then 1
  else ((x : ℚ) - r.left) / r.width

/-- `Slider::r#move`: when the rail `NodeRef` resolves to an element, read
its bounding rectangle and send `Msg::SetPercent` with the clamped percent;
when it does not resolve, do nothing.  Returns the (unchanged) state and the
list of messages sent via `ctx.link().send_message`. -/
def move (s : State) (rail : Option Rect) (x : ℤ) : State × List Msg :=
  match rail with
  | none => (s, [])
  | some r => (s, [Msg.SetPercent (movePercent r x)])

/-- `Slider::update` (lines 107–130).  `rail` is what `self.refs.rail.cast`
resolves to at the time of the call.  Returns the new state, the values
emitted to `onchange`, and the messages sent to the component's own queue.
`Msg::Stop` sets both listener fields to `None`, dropping (detaching) the
owned listeners. -/
def update (props : Props) (rail : Option Rect) (s : State) (msg : Msg) :
    State × List ℚ × List Msg :=
  match msg with
  | .SetPercent value =>
      ({ s with value := value }, [calc_value value props], [])
  | .Start _ => (start s, [], [])
  | .Move x => ((move s rail x).1, [], (move s rail x).2)
  | .Stop =>
      ({ s with mousemove := none, mouseup := none,
                attachedMove := detachOpt s.attachedMove s.mousemove,
                attachedUp := detachOpt s.attachedUp s.mouseup }, [], [])

/-- One full event turn: process `msg`, then process the messages it sent
(`SetPercent` is the only message `update` ever sends, and it sends none
itself).  Returns the final state and all `onchange` emissions, in order. -/
def handleEvent (props : Props) (rail : Option Rect) (s : State) (msg : Msg) :
    State × List ℚ :=
  let r := update props rail s msg
  r.2.2.foldl
    (fun acc m =>
      let r' := update props rail acc.1 m
      (r'.1, acc.2 ++ r'.2.1))
    (r.1, r.2.1)

/-- The messages the slider's own handlers can feed to `update` from state
`s`: `Start`, `Move` and `Stop` with arbitrary data (they come from DOM
events), and `SetPercent p` only when some `Move` against a rail of
non-negative width sends it from `s`. -/
inductive ValidMsg (props : Props) (s : State) : Msg → Prop
  | start (x : ℤ) : ValidMsg props s (.Start x)
  | move (x : ℤ) : ValidMsg props s (.Move x)
  | stop : ValidMsg props s .Stop
  | setPercent (p : ℚ) (r : Rect) (x : ℤ) (hw : 0 ≤ r.width)
      (h : Msg.SetPercent p ∈ (update props (some r) s (.Move x)).2.2) :
      ValidMsg props s (.SetPercent p)

/-- The states of the slider reachable from `create` by the transitions its
own pointer handlers generate (rails always have non-negative width, as
bounding rectangles do). -/
inductive Reachable (props : Props) : State → Prop
  | init : Reachable props (create props).1
  | step (s : State) (msg : Msg) (rail : Option Rect)
      (hs : Reachable props s) (hv : ValidMsg props s msg)
      (hw : ∀ r, rail = some r → 0 ≤ r.width) :
      Reachable props (update props rail s msg).1

theorem movePercent_nonneg (r : Rect) (x : ℤ) : 0 ≤ movePercent r x := by
  unfold movePercent
  split
  · exact le_refl 0
  · split
    · norm_num
    · rename_i h1 h2
      exact le_of_lt (div_pos (lt_of_not_le h1) (lt_of_lt_of_le (lt_of_not_le h1) (le_of_not_le h2)))

theorem movePercent_le_one (r : Rect) (x : ℤ) (hw : 0 ≤ r.width) :
    movePercent r x ≤ 1 := by
  unfold movePercent
  split
  · norm_num
  · split
    · exact le_refl 1
    · rename_i h1 h2
      have hv : (0:ℚ) < (x : ℚ) - r.left := lt_of_not_le h1
      have hvw : (x : ℚ) - r.left < r.width := lt_of_not_le h2
      exact le_of_lt ((div_lt_one (lt_trans hv hvw)).mpr hvw)

/-- The value stored after `create` lies in `[0,1]`. -/
theorem create_value_mem (props : Props) :
    0 ≤ (create props).1.value ∧ (create props).1.value ≤ 1 := by
  unfold create
  match props.value with
  | some v => exact ⟨clamp01_nonneg _, clamp01_le_one _⟩
  | none => norm_num

/-- **C5.** In every reachable state of the slider state machine the stored
normalized position satisfies `0 ≤ position ≤ 1`. -/
theorem reachable_value_mem_unit (props : Props) (s : State)
    (h : Reachable props s) : 0 ≤ s.value ∧ s.value ≤ 1 := by
  induction h with
  | init => exact create_value_mem props
  | step s msg rail hs hv hw ih =>
      cases hv with
      | start x => simpa [update, start] using ih
      | stop => simpa [update] using ih
      | move x =>
          cases rail with
          | none => simpa [update, move] using ih
          | some r => simpa [update, move] using ih
      | setPercent p r x hwr hmem =>
          have hp : p = movePercent r x := by
            simp only [update, move, List.mem_singleton] at hmem
            injection hmem
          subst hp
          exact ⟨movePercent_nonneg r x, movePercent_le_one r x hwr⟩

/-- Witness for `reachable_value_mem_unit`: the initial state of a concrete
configuration is reachable and its value lies in `[0,1]`. -/
theorem reachable_value_mem_unit_witness :
    0 ≤ (create propsOneThree).1.value ∧ (create propsOneThree).1.value ≤ 1 :=
  reachable_value_mem_unit propsOneThree (create propsOneThree).1 Reachable.init

theorem detachOpt_toList (o : Option Nat) : detachOpt o.toList o = [] := by
  cases o <;> simp [detachOpt]

/-- The listener-pair invariant: the attached document listeners of each kind
are exactly the one owned by the corresponding field (in particular there is
never more than one of a kind), and the two fields are `some` together. -/
def ListenerInv (s : State) : Prop :=
  (s.mousemove.isSome ↔ s.mouseup.isSome) ∧
    s.attachedMove = s.mousemove.toList ∧ s.attachedUp = s.mouseup.toList

theorem reachable_listenerInv (props : Props) (s : State)
    (h : Reachable props s) : ListenerInv s := by
  induction h with
  | init =>
      cases hp : props.value <;> simp [ListenerInv, create, hp]
  | step s msg rail hs hv ih =>
      rename_i ihh
      cases hv with
      | start x =>
          obtain ⟨h1, h2, h3⟩ := ihh
          refine ⟨by simp [update, start], ?_, ?_⟩
          · show detachOpt (s.attachedMove ++ [s.nextId]) s.mousemove = _
            rw [h2]
            cases s.mousemove with
            | none => simp [detachOpt, update, start]
            | some o => simp [detachOpt, update, start]
          · show detachOpt (s.attachedUp ++ [s.nextId + 1]) s.mouseup = _
            rw [h3]
            cases s.mouseup with
            | none => simp [detachOpt, update, start]
            | some o => simp [detachOpt, update, start]
      | stop =>
          obtain ⟨h1, h2, h3⟩ := ihh
          refine ⟨by simp [update], ?_, ?_⟩
          · show detachOpt s.attachedMove s.mousemove = _
            rw [h2, detachOpt_toList]; rfl
          · show detachOpt s.attachedUp s.mouseup = _
            rw [h3, detachOpt_toList]; rfl
      | move x =>
          cases rail with
          | none => simpa [ListenerInv, update, move] using ihh
          | some r => simpa [ListenerInv, update, move] using ihh
      | setPercent p r x hwr hmem =>
          simpa [ListenerInv, update] using ihh

/-- **C6.** In every reachable slider state the two document-level listeners
form a single unit: the `mousemove` listener is attached iff the `mouseup`
listener is, the attached listeners of each kind are exactly the (at most
one) owned by the state, and processing `Stop` detaches everything. -/
theorem reachable_listener_pair (props : Props) (s : State)
    (h : Reachable props s) :
    (s.mousemove.isSome ↔ s.mouseup.isSome) ∧
      s.attachedMove = s.mousemove.toList ∧
      s.attachedUp = s.mouseup.toList ∧
      s.attachedMove.length ≤ 1 ∧ s.attachedUp.length ≤ 1 ∧
      (∀ rail, (update props rail s Msg.Stop).1.attachedMove = [] ∧
        (update props rail s Msg.Stop).1.attachedUp = []) := by
  obtain ⟨h1, h2, h3⟩ := reachable_listenerInv props s h
  refine ⟨h1, h2, h3, ?_, ?_, ?_⟩
  · rw [h2]; cases s.mousemove <;> simp
  · rw [h3]; cases s.mouseup <;> simp
  · intro rail
    constructor
    · show detachOpt s.attachedMove s.mousemove = []
      rw [h2, detachOpt_toList]
    · show detachOpt s.attachedUp s.mouseup = []
      rw [h3, detachOpt_toList]

/-- Witness for `reachable_listener_pair` at the initial state of a concrete
configuration. -/
theorem reachable_listener_pair_witness :
    ((create propsOneThree).1.mousemove.isSome ↔
        (create propsOneThree).1.mouseup.isSome) ∧
      (create propsOneThree).1.attachedMove =
        (create propsOneThree).1.mousemove.toList ∧
      (create propsOneThree).1.attachedUp =
        (create propsOneThree).1.mouseup.toList ∧
      (create propsOneThree).1.attachedMove.length ≤ 1 ∧
      (create propsOneThree).1.attachedUp.length ≤ 1 ∧
      (∀ rail,
        (update propsOneThree rail (create propsOneThree).1 Msg.Stop).1.attachedMove = [] ∧
        (update propsOneThree rail (create propsOneThree).1 Msg.Stop).1.attachedUp = []) :=
  reachable_listener_pair propsOneThree (create propsOneThree).1 Reachable.init

/-- **C7.** Creating the slider emits exactly one change notification: the
supplied value when `props.value = some v`, else `min.value`. -/
theorem create_emits_exactly_initial (props : Props) :
    (create props).2 = [props.value.getD props.min.value] := by
  cases hp : props.value <;> simp [create, hp]

/-- Processing a `Move` against a present rail stores the clamped percent
(via the `SetPercent` it sends) and emits the mapped domain value once. -/
theorem handleEvent_move_some (props : Props) (s : State) (r : Rect) (x : ℤ) :
    handleEvent props (some r) s (Msg.Move x) =
      ({ s with value := movePercent r x },
        [calc_value (movePercent r x) props]) := by
  simp [handleEvent, update, move]

/-- **C8.** A `Move` whose pointer x-coordinate lies strictly outside the
rail extent stores exactly `0` (pointer left of the rail, `x - left ≤ 0`)
or exactly `1` (pointer right of the rail, `x - left ≥ width`). -/
theorem move_outside_rail_clamps (props : Props) (s : State) (r : Rect)
    (x : ℤ) (hw : 0 ≤ r.width) :
    ((x : ℚ) < r.left →
      (handleEvent props (some r) s (Msg.Move x)).1.value = 0) ∧
    (r.left + r.width < (x : ℚ) →
      (handleEvent props (some r) s (Msg.Move x)).1.value = 1) := by
  rw [handleEvent_move_some]
  constructor
  · intro hx
    show movePercent r x = 0
    rw [movePercent, if_pos (by linarith)]
  · intro hx
    show movePercent r x = 1
    rw [movePercent, if_neg (by push_neg; linarith), if_pos (by linarith)]

/-- Witness for `move_outside_rail_clamps` with a rail `[10, 10 + 5]` and
the pointer at `x = 20`. -/
theorem move_outside_rail_clamps_witness :
    (0:ℚ) ≤ (5:ℚ) ∧
      (((20 : ℤ) : ℚ) < (10:ℚ) →
        (handleEvent propsOneThree (some ⟨10, 5⟩)
          (create propsOneThree).1 (Msg.Move 20)).1.value = 0) ∧
      ((10:ℚ) + (5:ℚ) < ((20 : ℤ) : ℚ) →
        (handleEvent propsOneThree (some ⟨10, 5⟩)
          (create propsOneThree).1 (Msg.Move 20)).1.value = 1) :=
  ⟨by norm_num,
    move_outside_rail_clamps propsOneThree (create propsOneThree).1
      ⟨10, 5⟩ 20 (by norm_num)⟩

/-- **C9.** A `Move` processed while the rail reference does not resolve is
a no-op: the state (in particular the stored position) is unchanged and no
change notification is emitted; the handler is total, so no fault occurs. -/
theorem move_without_rail_noop (props : Props) (s : State) (x : ℤ) :
    handleEvent props none s (Msg.Move x) = (s, []) := rfl

/-! ## The card component -/

/-- `CardSize` from `components/card/mod.rs`. -/
inductive CardSize where
  | Default
  | Compact
  | Large
deriving DecidableEq

/-- The fields of `CardProperties` that feed the class-list computation.
The `onclick` callback is modelled by its presence. -/
structure CardProperties where
  size : CardSize
  selectable : Bool
  selected : Bool
  clickable : Bool
  disabled : Bool
  flat : Bool
  rounded : Bool
  full_height : Bool
  plain : Bool
  expanded : Bool
  onclick : Option Unit
  «class» : List String
deriving DecidableEq

/-- The class list built by the `card` function component
(`components/card/mod.rs`, lines 147–197), as the ordered sequence of
pushed class names (`classes!("pf-v5-c-card")`, the individual flag pushes,
the selectable/clickable branch, then `class.extend(props.class)`). -/
def cardClass (props : CardProperties) : List String :=
  ["pf-v5-c-card"]
    ++ (if props.size = CardSize.Compact then ["pf-m-compact"] else [])
    ++ (if props.size = CardSize.Large then ["pf-m-display-lg"] else [])
    ++ (if props.disabled then ["pf-m-disabled"] else [])
    ++ (if props.expanded then ["pf-m-expanded"] else [])
    ++ (if props.flat then ["pf-m-flat"] else [])
    ++ (if props.selectable then ["pf-m-selectable"] else [])
    ++ (if props.selected then ["pf-m-selected"] else [])
    ++ (if props.full_height then ["pf-m-full-height"] else [])
    ++ (if props.rounded then ["pf-m-rounded"] else [])
    ++ (if props.plain then ["pf-m-plain"] else [])
    ++ (if props.selectable && (props.clickable || props.onclick.isSome) then
          ["pf-m-selectable", "pf-m-clickable"]
            ++ (if props.selected then ["pf-m-current"] else [])
        else if props.selectable then
          ["pf-m-selectable"]
            ++ (if props.selected then ["pf-m-selected"] else [])
        else if props.clickable || props.onclick.isSome then
          ["pf-m-clickable"]
            ++ (if props.selected then ["pf-m-selected"] else [])
        else [])
    ++ props.class

theorem mem_ite_nil {α} (a : α) (c : Prop) [Decidable c] (l : List α) :
    (a ∈ if c then l else []) ↔ c ∧ a ∈ l := by
  split <;> simp_all

/-- A selectable, selected card with a click handler and no extra classes. -/
def cardPropsSelSelOnclick : CardProperties :=
  { size := CardSize.Default, selectable := true, selected := true,
    clickable := false, disabled := false, flat := false, rounded := false,
    full_height := false, plain := false, expanded := false,
    onclick := some (), «class» := [] }

/-- **C4, counterexample.** The claim says that for
`selectable = true, selected = true, onclick = Some(_)` the class list does
not contain the plain selected tag.  It does: `pf-m-selected` is pushed
unconditionally (line 167) before the tri-way branch runs. -/
theorem card_selected_tag_survives :
    "pf-m-selected" ∈ cardClass cardPropsSelSelOnclick := by decide

/-- **C4, amended.** With `clickable` taken as the explicit flag or the
presence of an `onclick` handler, and no user-supplied extra classes, the
tag membership of the produced class list is: `pf-m-selectable` iff
selectable; `pf-m-clickable` iff clickable; `pf-m-current` iff selectable,
clickable and selected all hold; and — unlike the claim — `pf-m-selected`
iff selected, because it is pushed unconditionally before the tri-way
branch. -/
theorem cardClass_tags (props : CardProperties) (h : props.class = []) :
    ("pf-m-selectable" ∈ cardClass props ↔ props.selectable = true) ∧
      ("pf-m-clickable" ∈ cardClass props ↔
        (props.clickable || props.onclick.isSome) = true) ∧
      ("pf-m-current" ∈ cardClass props ↔
        (props.selectable && (props.clickable || props.onclick.isSome) &&
          props.selected) = true) ∧
      ("pf-m-selected" ∈ cardClass props ↔ props.selected = true) := by
  obtain ⟨size, selectable, selected, clickable, disabled, flat, rounded,
    full_height, plain, expanded, onclick, cls⟩ := props
  simp only at h
  subst h
  cases selectable <;> cases selected <;> cases clickable <;>
    rcases onclick with _ | u <;> (try cases u) <;>
    simp [cardClass, mem_ite_nil]

/-- Witness for `cardClass_tags` at the concrete configuration
`cardPropsSelSelOnclick`. -/
theorem cardClass_tags_witness :
    ("pf-m-selectable" ∈ cardClass cardPropsSelSelOnclick ↔
        cardPropsSelSelOnclick.selectable = true) ∧
      ("pf-m-clickable" ∈ cardClass cardPropsSelSelOnclick ↔
        (cardPropsSelSelOnclick.clickable ||
          cardPropsSelSelOnclick.onclick.isSome) = true) ∧
      ("pf-m-current" ∈ cardClass cardPropsSelSelOnclick ↔
        (cardPropsSelSelOnclick.selectable &&
          (cardPropsSelSelOnclick.clickable ||
            cardPropsSelSelOnclick.onclick.isSome) &&
          cardPropsSelSelOnclick.selected) = true) ∧
      ("pf-m-selected" ∈ cardClass cardPropsSelSelOnclick ↔
        cardPropsSelSelOnclick.selected = true) :=
  cardClass_tags cardPropsSelSelOnclick rfl

/-! ## The live-value string of the slider view

`Slider::view` (lines 134–139) renders the current domain value with
`format!("{0:.1$}", value, label_precision)` and then strips trailing zeros
with `trim_end_matches('0')`; the result is used as `aria-valuenow`.
Fixed-point formatting of the rational model is rendered with
round-to-nearest (`round`, modelling the rounding of `f64` formatting), and
strings are `List Char`. -/

/-- Little-endian decimal digits, by fuel recursion (kernel-computable). -/
def natDigitsRev (fuel n : Nat) : List Nat :=
  match fuel with
  | 0 => []
  | f + 1 => if n = 0 then [] else n % 10 :: natDigitsRev f (n / 10)

/-- Little-endian decimal digits of `n`. -/
def natDigits (n : Nat) : List Nat := natDigitsRev (n + 1) n

theorem natDigitsRev_eq (fuel n : Nat) (h : n < fuel) :
    natDigitsRev fuel n = Nat.digits 10 n := by
  induction fuel generalizing n with
  | zero => omega
  | succ f ih =>
      rw [natDigitsRev]
      by_cases hn : n = 0
      · subst hn; simp
      · rw [if_neg hn,
          Nat.digits_def' (by norm_num : 1 < 10) (Nat.pos_of_ne_zero hn)]
        congr 1
        exact ih (n / 10)
          (lt_of_lt_of_le (Nat.div_lt_self (Nat.pos_of_ne_zero hn) (by norm_num))
            (Nat.lt_succ_iff.mp h))

theorem natDigits_eq_digits (n : Nat) : natDigits n = Nat.digits 10 n :=
  natDigitsRev_eq (n + 1) n (Nat.lt_succ_self n)

/-- The character of a decimal digit. -/
def digitChar (d : Nat) : Char :=
  if d = 0 then '0' else if d = 1 then '1' else if d = 2 then '2'
  else if d = 3 then '3' else if d = 4 then '4' else if d = 5 then '5'
  else if d = 6 then '6' else if d = 7 then '7' else if d = 8 then '8'
  else if d = 9 then '9' else '*'

/-- The decimal digit denoted by a character, if any. -/
def charDigit? (c : Char) : Option Nat :=
  if c = '0' then some 0 else if c = '1' then some 1 else if c = '2' then some 2
  else if c = '3' then some 3 else if c = '4' then some 4 else if c = '5' then some 5
  else if c = '6' then some 6 else if c = '7' then some 7 else if c = '8' then some 8
  else if c = '9' then some 9 else none

theorem charDigit?_digitChar (d : Nat) (h : d < 10) :
    charDigit? (digitChar d) = some d := by
  interval_cases d <;> decide

theorem digitChar_ne_dot (d : Nat) : digitChar d ≠ '.' := by
  unfold digitChar
  repeat' split
  all_goals decide

theorem digitChar_ne_dash (d : Nat) : digitChar d ≠ '-' := by
  unfold digitChar
  repeat' split
  all_goals decide

/-- The decimal rendering of a natural number (Rust renders `0` as `"0"`). -/
def natStr (n : Nat) : List Char :=
  if n = 0 then ['0'] else (natDigits n).reverse.map digitChar

/-- The `p`-digit fractional block for `m` (`m < 10^p`): `m` in decimal,
left-padded with zeros to exactly `p` digits. -/
def padFrac (m p : Nat) : List Char :=
  List.replicate (p - (natDigits m).length) '0' ++
    (natDigits m).reverse.map digitChar

/-- `format!("{0:.1$}", q, p)` on the rational model: the value is rounded
to `p` decimal places and rendered with sign, integer part, and (when
`p ≠ 0`) a point followed by exactly `p` fractional digits. -/
def renderFixed (q : ℚ) (p : Nat) : List Char :=
  (if round (q * 10 ^ p) < 0 then ['-'] else []) ++
    (if p = 0 then natStr (round (q * 10 ^ p)).natAbs
     else natStr ((round (q * 10 ^ p)).natAbs / 10 ^ p) ++
       '.' :: padFrac ((round (q * 10 ^ p)).natAbs % 10 ^ p) p)

/-- Rust `str::trim_end_matches('0')`: remove every trailing `'0'`. -/
def trimEndZeros (cs : List Char) : List Char :=
  (cs.reverse.dropWhile (fun c => c == '0')).reverse

/-- The `aria-valuenow` string built in `Slider::view`: the current domain
value rendered with `label_precision` decimal places, trailing zeros
stripped. -/
def liveValueString (s : State) (props : Props) : List Char :=
  trimEndZeros (renderFixed (calc_value s.value props) props.label_precision)

/-- The natural number denoted by a big-endian string of decimal digits
(`none` when a character is not a digit; the empty string denotes `0`). -/
def digitsVal? : List Char → Option Nat
  | [] => some 0
  | c :: cs =>
      (charDigit? c).bind
        (fun d => (digitsVal? cs).map (fun v => d * 10 ^ cs.length + v))

/-- The number denoted by a (sign-free) fixed-point numeral: digits, then
optionally a point and fractional digits. -/
def parseUnsigned (cs : List Char) : Option ℚ :=
  if cs.takeWhile (fun c => !(c == '.')) = [] then none
  else
    match digitsVal? (cs.takeWhile (fun c => !(c == '.'))),
        cs.dropWhile (fun c => !(c == '.')) with
    | some i, [] => some (i : ℚ)
    | some i, c :: fs =>
        if c == '.' then
          (digitsVal? fs).map (fun f => (i : ℚ) + (f : ℚ) / 10 ^ fs.length)
        else none
    | none, _ => none

/-- The number denoted by a fixed-point numeral with an optional sign. -/
def parseFixed (cs : List Char) : Option ℚ :=
  if cs.take 1 = ['-'] then (parseUnsigned (cs.drop 1)).map (fun q => -q)
  else parseUnsigned cs

theorem digitsVal?_append (xs ys : List Char) :
    digitsVal? (xs ++ ys) =
      (digitsVal? xs).bind
        (fun a => (digitsVal? ys).map (fun b => a * 10 ^ ys.length + b)) := by
  induction xs with
  | nil =>
      cases hy : digitsVal? ys with
      | none => simp [digitsVal?, hy]
      | some b => simp [digitsVal?, hy]
  | cons c cs ih =>
      rw [List.cons_append]
      show (charDigit? c).bind
          (fun d => (digitsVal? (cs ++ ys)).map
            (fun v => d * 10 ^ (cs ++ ys).length + v)) = _
      rw [ih]
      cases hc : charDigit? c with
      | none => simp [digitsVal?, hc]
      | some d =>
          cases hx : digitsVal? cs with
          | none => simp [digitsVal?, hc, hx]
          | some a =>
              cases hy : digitsVal? ys with
              | none => simp [digitsVal?, hc, hx, hy]
              | some b =>
                  simp [digitsVal?, hc, hx, hy, List.length_append, pow_add]
                  ring

theorem digitsVal?_replicate_zero (k : Nat) :
    digitsVal? (List.replicate k '0') = some 0 := by
  induction k with
  | zero => rfl
  | succ n ih =>
      rw [List.replicate_succ]
      simp [digitsVal?, ih, charDigit?]

theorem digitsVal?_ofDigits (ds : List Nat) (h : ∀ d ∈ ds, d < 10) :
    digitsVal? (ds.reverse.map digitChar) = some (Nat.ofDigits 10 ds) := by
  induction ds with
  | nil => rfl
  | cons d ds ih =>
      rw [List.reverse_cons, List.map_append, digitsVal?_append,
        ih (fun x hx => h x (List.mem_cons_of_mem d hx))]
      have hd : charDigit? (digitChar d) = some d :=
        charDigit?_digitChar d (h d (List.mem_cons_self d ds))
      have h1 : digitsVal? (List.map digitChar [d]) = some d := by
        simp [digitsVal?, hd]
      rw [h1]
      simp [Nat.ofDigits_cons]
      ring

theorem digitsVal?_natStr (n : Nat) : digitsVal? (natStr n) = some n := by
  unfold natStr
  by_cases hn : n = 0
  · subst hn; rfl
  · rw [if_neg hn, natDigits_eq_digits,
      digitsVal?_ofDigits _ (fun d hd => Nat.digits_lt_base (by norm_num) hd),
      Nat.ofDigits_digits]

theorem digitsVal?_padFrac (m p : Nat) :
    digitsVal? (padFrac m p) = some m := by
  rw [padFrac, digitsVal?_append, digitsVal?_replicate_zero, natDigits_eq_digits,
    digitsVal?_ofDigits _ (fun d hd => Nat.digits_lt_base (by norm_num) hd),
    Nat.ofDigits_digits]
  simp

theorem natStr_ne_nil (n : Nat) : natStr n ≠ [] := by
  unfold natStr
  split
  · simp
  · rename_i hn
    simp only [ne_eq, List.map_eq_nil_iff, List.reverse_eq_nil_iff,
      natDigits_eq_digits]
    exact Nat.digits_ne_nil_iff_ne_zero.mpr hn

theorem natStr_chars (n : Nat) :
    ∀ c ∈ natStr n, ∃ d, d < 10 ∧ c = digitChar d := by
  intro c hc
  unfold natStr at hc
  split at hc
  · refine ⟨0, by norm_num, ?_⟩
    simp only [List.mem_singleton] at hc
    subst hc; rfl
  · rw [natDigits_eq_digits] at hc
    obtain ⟨d, hd, rfl⟩ := List.mem_map.mp hc
    exact ⟨d, Nat.digits_lt_base (by norm_num) (List.mem_reverse.mp hd), rfl⟩

theorem takeWhile_append_of_all {α} (p : α → Bool) (xs : List α) (b : α)
    (ys : List α) (h : ∀ a ∈ xs, p a = true) (hb : p b = false) :
    (xs ++ b :: ys).takeWhile p = xs := by
  induction xs with
  | nil => simp [List.takeWhile, hb]
  | cons a xs ih =>
      rw [List.cons_append, List.takeWhile_cons,
        h a (List.mem_cons_self a xs)]
      rw [ih (fun x hx => h x (List.mem_cons_of_mem a hx))]
      simp

theorem dropWhile_append_of_all {α} (p : α → Bool) (xs : List α) (b : α)
    (ys : List α) (h : ∀ a ∈ xs, p a = true) (hb : p b = false) :
    (xs ++ b :: ys).dropWhile p = b :: ys := by
  induction xs with
  | nil => simp [List.dropWhile, hb]
  | cons a xs ih =>
      rw [List.cons_append, List.dropWhile_cons,
        h a (List.mem_cons_self a xs)]
      exact ih (fun x hx => h x (List.mem_cons_of_mem a hx))

theorem dropWhile_append_cons_false {α} (p : α → Bool) (xs : List α) (b : α)
    (ys : List α) (hb : p b = false) :
    (xs ++ b :: ys).dropWhile p = xs.dropWhile p ++ b :: ys := by
  induction xs with
  | nil => simp [List.dropWhile, hb]
  | cons a xs ih =>
      rw [List.cons_append, List.dropWhile_cons, List.dropWhile_cons]
      cases hpa : p a
      · simp
      · simpa using ih

/-- Trimming trailing zeros from a string with a decimal point only touches
the part after the point. -/
theorem trimEndZeros_append_dot (pre F : List Char) :
    trimEndZeros (pre ++ '.' :: F) = pre ++ '.' :: trimEndZeros F := by
  unfold trimEndZeros
  rw [List.reverse_append, List.reverse_cons, List.append_assoc,
    List.singleton_append]
  rw [dropWhile_append_cons_false (fun c => c == '0') F.reverse '.'
    (pre.reverse) (by decide)]
  rw [List.reverse_append, List.reverse_cons, List.reverse_reverse]
  simp

/-- Every string splits as its zero-trimmed prefix followed by zeros. -/
theorem trimEndZeros_decomp (F : List Char) :
    ∃ k, F = trimEndZeros F ++ List.replicate k '0' := by
  have h : ∀ c ∈ F.reverse.takeWhile (fun c => c == '0'), c = '0' := by
    intro c hc
    simpa using List.mem_takeWhile_imp hc
  have hrep : F.reverse.takeWhile (fun c => c == '0') =
      List.replicate (F.reverse.takeWhile (fun c => c == '0')).length '0' :=
    List.eq_replicate_of_mem h
  refine ⟨(F.reverse.takeWhile (fun c => c == '0')).length, ?_⟩
  conv_lhs => rw [← List.reverse_reverse F,
    ← List.takeWhile_append_dropWhile (p := fun c => c == '0') (l := F.reverse)]
  rw [List.reverse_append, trimEndZeros]
  congr 1
  rw [hrep, List.reverse_replicate]
  simp

theorem parseUnsigned_digits_dot (n : Nat) (F : List Char) (f : Nat)
    (hF : digitsVal? F = some f) :
    parseUnsigned (natStr n ++ '.' :: F) =
      some ((n : ℚ) + (f : ℚ) / 10 ^ F.length) := by
  have hall : ∀ c ∈ natStr n, (fun c => !(c == '.')) c = true := by
    intro c hc
    obtain ⟨d, hd, rfl⟩ := natStr_chars n c hc
    simpa using digitChar_ne_dot d
  have hdot : (fun c => !(c == '.')) '.' = false := by decide
  have htake := takeWhile_append_of_all _ (natStr n) '.' F hall hdot
  have hdrop := dropWhile_append_of_all _ (natStr n) '.' F hall hdot
  rw [parseUnsigned, htake, hdrop, if_neg (natStr_ne_nil n), digitsVal?_natStr]
  simp [hF]

theorem parseFixed_digits_dot (n : Nat) (F : List Char) (f : Nat)
    (hF : digitsVal? F = some f) :
    parseFixed (natStr n ++ '.' :: F) =
      some ((n : ℚ) + (f : ℚ) / 10 ^ F.length) := by
  have hne : (natStr n ++ '.' :: F).take 1 ≠ ['-'] := by
    obtain ⟨c, t, hct⟩ : ∃ c t, natStr n = c :: t := by
      cases h : natStr n with
      | nil => exact absurd h (natStr_ne_nil n)
      | cons c t => exact ⟨c, t, rfl⟩
    obtain ⟨d, hd, hcd⟩ := natStr_chars n c (by rw [hct]; exact List.mem_cons_self c t)
    rw [hct, List.cons_append, List.take_succ_cons, List.take_zero]
    simp only [ne_eq, List.cons.injEq, and_true]
    rw [hcd]
    exact digitChar_ne_dash d
  rw [parseFixed, if_neg hne, parseUnsigned_digits_dot n F f hF]

theorem parseFixed_dash_digits_dot (n : Nat) (F : List Char) (f : Nat)
    (hF : digitsVal? F = some f) :
    parseFixed ('-' :: (natStr n ++ '.' :: F)) =
      some (-((n : ℚ) + (f : ℚ) / 10 ^ F.length)) := by
  rw [parseFixed]
  rw [if_pos (by simp [List.take])]
  simp only [List.drop_succ_cons, List.drop_zero]
  rw [parseUnsigned_digits_dot n F f hF]
  rfl

theorem renderFixed_decomp (q : ℚ) (p : Nat) (hp0 : p ≠ 0) :
    renderFixed q p =
      (if round (q * 10 ^ p) < 0 then ['-'] else []) ++
        (natStr ((round (q * 10 ^ p)).natAbs / 10 ^ p) ++
          '.' :: padFrac ((round (q * 10 ^ p)).natAbs % 10 ^ p) p) := by
  rw [renderFixed, if_neg hp0]

/-- For a positive number of decimal places, stripping trailing zeros from
the fixed-point rendering does not change the number the string denotes. -/
theorem parse_trim_renderFixed (q : ℚ) (p : Nat) (hp : 1 ≤ p) :
    ∃ r, parseFixed (renderFixed q p) = some r ∧
      parseFixed (trimEndZeros (renderFixed q p)) = some r := by
  have hp0 : p ≠ 0 := by omega
  have hdecomp := renderFixed_decomp q p hp0
  generalize hn : round (q * 10 ^ p) = n at hdecomp
  obtain ⟨k, hk⟩ := trimEndZeros_decomp (padFrac (n.natAbs % 10 ^ p) p)
  have hF : digitsVal? (padFrac (n.natAbs % 10 ^ p) p) =
      some (n.natAbs % 10 ^ p) := digitsVal?_padFrac _ _
  have h := hF
  rw [hk, digitsVal?_append, digitsVal?_replicate_zero] at h
  cases h1 : digitsVal? (trimEndZeros (padFrac (n.natAbs % 10 ^ p) p)) with
  | none => rw [h1] at h; simp at h
  | some f₁ =>
  rw [h1] at h
  simp only [Option.some_bind, Option.map_some', Option.some.injEq,
    List.length_replicate] at h
  have hmul : f₁ * 10 ^ k = n.natAbs % 10 ^ p := by omega
  have hlen : (padFrac (n.natAbs % 10 ^ p) p).length =
      (trimEndZeros (padFrac (n.natAbs % 10 ^ p) p)).length + k := by
    conv_lhs => rw [hk]
    rw [List.length_append, List.length_replicate]
  have harith : ((n.natAbs % 10 ^ p : Nat) : ℚ) /
        10 ^ (padFrac (n.natAbs % 10 ^ p) p).length =
      (f₁ : ℚ) /
        10 ^ (trimEndZeros (padFrac (n.natAbs % 10 ^ p) p)).length := by
    rw [hlen, ← hmul, pow_add]
    push_cast
    rw [mul_div_mul_right _ _ (by positivity : ((10:ℚ) ^ k) ≠ 0)]
  by_cases hneg : n < 0
  · have hrender : renderFixed q p =
        '-' :: (natStr (n.natAbs / 10 ^ p) ++
          '.' :: padFrac (n.natAbs % 10 ^ p) p) := by
      rw [hdecomp, if_pos hneg]; rfl
    have htrim : trimEndZeros (renderFixed q p) =
        '-' :: (natStr (n.natAbs / 10 ^ p) ++
          '.' :: trimEndZeros (padFrac (n.natAbs % 10 ^ p) p)) := by
      rw [hrender,
        show ('-' :: (natStr (n.natAbs / 10 ^ p) ++
            '.' :: padFrac (n.natAbs % 10 ^ p) p)) =
          ('-' :: natStr (n.natAbs / 10 ^ p)) ++
            '.' :: padFrac (n.natAbs % 10 ^ p) p from rfl,
        trimEndZeros_append_dot]
      rfl
    refine ⟨-((↑(n.natAbs / 10 ^ p) : ℚ) + ↑(n.natAbs % 10 ^ p) /
        10 ^ (padFrac (n.natAbs % 10 ^ p) p).length), ?_, ?_⟩
    · rw [hrender]
      exact parseFixed_dash_digits_dot _ _ _ hF
    · rw [htrim, parseFixed_dash_digits_dot _ _ _ h1, harith]
  · have hrender : renderFixed q p =
        natStr (n.natAbs / 10 ^ p) ++ '.' :: padFrac (n.natAbs % 10 ^ p) p := by
      rw [hdecomp, if_neg hneg]; rfl
    have htrim : trimEndZeros (renderFixed q p) =
        natStr (n.natAbs / 10 ^ p) ++
          '.' :: trimEndZeros (padFrac (n.natAbs % 10 ^ p) p) := by
      rw [hrender, trimEndZeros_append_dot]
    refine ⟨(↑(n.natAbs / 10 ^ p) : ℚ) + ↑(n.natAbs % 10 ^ p) /
        10 ^ (padFrac (n.natAbs % 10 ^ p) p).length, ?_, ?_⟩
    · rw [hrender]
      exact parseFixed_digits_dot _ _ _ hF
    · rw [htrim, parseFixed_digits_dot _ _ _ h1, harith]

/-- A slider state with the thumb at the middle of the range. -/
def stateHalf : State :=
  { value := 1/2, mousemove := none, mouseup := none,
    attachedMove := [], attachedUp := [], nextId := 0 }

/-- A configuration with domain `[0, 20]` and `label_precision = 0`. -/
def propsZeroTwenty : Props :=
  { min := ⟨0, none⟩, max := ⟨20, none⟩, value := none,
    hide_labels := false, label_precision := 0 }

/-- A configuration with domain `[0, 1]` and `label_precision = 1`. -/
def propsPrecisionOne : Props :=
  { min := ⟨0, none⟩, max := ⟨1, none⟩, value := none,
    hide_labels := false, label_precision := 1 }

/-- **C10, counterexample.** With `label_precision = 0`, domain `[0, 20]`
and the thumb at position `1/2`, the domain value is `10`, rendered as
`"10"`; stripping trailing zeros leaves `"1"`, which denotes `1`, not `10`:
the stripping is not restricted to redundant zeros. -/
theorem trim_changes_value_at_precision_zero :
    parseFixed (liveValueString stateHalf propsZeroTwenty) ≠
        parseFixed (renderFixed (calc_value stateHalf.value propsZeroTwenty)
          propsZeroTwenty.label_precision) ∧
      parseFixed (liveValueString stateHalf propsZeroTwenty) = some 1 ∧
      parseFixed (renderFixed (calc_value stateHalf.value propsZeroTwenty)
        propsZeroTwenty.label_precision) = some 10 := by
  have hv : calc_value stateHalf.value propsZeroTwenty = 10 := by
    norm_num [calc_value, stateHalf, propsZeroTwenty]
  have hprec : propsZeroTwenty.label_precision = 0 := rfl
  have hround : round ((10:ℚ) * 10 ^ (0:ℕ)) = 10 := by rw [round_eq]; norm_num
  have hrender : renderFixed 10 0 = ['1', '0'] := by
    simp only [renderFixed, hround]
    decide
  have h1 : parseFixed (liveValueString stateHalf propsZeroTwenty) = some 1 := by
    rw [liveValueString, hv, hprec, hrender,
      show trimEndZeros ['1', '0'] = ['1'] from by decide]
    simp [parseFixed, parseUnsigned, digitsVal?, charDigit?,
      List.takeWhile, List.dropWhile]
  have h2 : parseFixed (renderFixed (calc_value stateHalf.value propsZeroTwenty)
      propsZeroTwenty.label_precision) = some 10 := by
    rw [hv, hprec, hrender]
    simp [parseFixed, parseUnsigned, digitsVal?, charDigit?,
      List.takeWhile, List.dropWhile]
  refine ⟨?_, h1, h2⟩
  rw [h1, h2]
  norm_num

/-- **C10, amended.** For every slider state and every
`label_precision ≥ 1` (the property default is `2`), the displayed
live-value string — the domain value rendered to that many decimal places
with trailing zeros stripped — still denotes the same number as the
unstripped fixed-point rendering.  (At precision `0` the stripping can
corrupt the integer, see the counterexample.) -/
theorem liveValueString_preserves_denotation (s : State) (props : Props)
    (hp : 1 ≤ props.label_precision) :
    ∃ r, parseFixed (renderFixed (calc_value s.value props)
        props.label_precision) = some r ∧
      parseFixed (liveValueString s props) = some r := by
  rw [liveValueString]
  exact parse_trim_renderFixed _ _ hp

/-- Witness for `liveValueString_preserves_denotation` at the initial state
of a configuration with `label_precision = 1`. -/
theorem liveValueString_preserves_denotation_witness :
    1 ≤ propsPrecisionOne.label_precision ∧
      ∃ r, parseFixed (renderFixed
          (calc_value (create propsPrecisionOne).1.value propsPrecisionOne)
          propsPrecisionOne.label_precision) = some r ∧
        parseFixed (liveValueString (create propsPrecisionOne).1
          propsPrecisionOne) = some r :=
  ⟨by norm_num [propsPrecisionOne],
    liveValueString_preserves_denotation (create propsPrecisionOne).1
      propsPrecisionOne (by norm_num [propsPrecisionOne])⟩

end PFY
